import Mathlib

/-! Plano Personalizado: configurator and checkout wizard (`src/script/plano.js`).

A shallow embedding of the React component tree of `plano.js`:

* `PRICES`, `PriceSummary` and `PlanoPersonalizado` (the pricing arithmetic and the panel state),
* `RangeControl` (the three event handlers of a quantity control),
* `CheckoutModal` (the hook state of the wizard, `validate`, `next`, `prev`, `finish`),
* `App`, the two component instances side by side, with one transition per user event.

Conventions of the embedding.

* Quantities and the wizard step are JavaScript numbers that only ever hold integers; they are
  `Int` here.  The one place where the source leaves the integers is `monthly * 0.8`; that product
  is modelled by IEEE-754 binary64 multiplication (`Js.mul`), values of type `ℚ` being the exact
  values of the doubles.
* `useState` cells are fields of a state record; an event handler is a function from the state
  before the event to the state after it (React applies all the setters called by one handler
  before the next event is dispatched).
* Calls that leave the component (`console.log`, `alert`, the `onClose` prop) are returned as a
  list of `Effect`s, in call order.
* The value an `onChange` handler reads from `e.target.value` is the value of the element that
  raised the event; for the slider of `RangeControl` that is the value of an `input` of type
  `range`, which the element keeps within its `min`, `max` and `step` attributes
  (`RangeControl.inputValue`).
-/

namespace PlanoJs

/-! ## JavaScript numbers and strings -/

namespace Js

/-- Round to the nearest integer, ties to the even neighbour. -/
def roundHalfEven (y : ℚ) : ℤ :=
  let f := ⌊y⌋
  if y - f < 1 / 2 then f
  else if 1 / 2 < y - f then f + 1
  else if f % 2 = 0 then f else f + 1

/-- The binary64 value nearest to the rational `x` (round to nearest, ties to even, 53 significant
bits).  The exponent range is not bounded: the result is the one IEEE-754 prescribes whenever
`2^(-1022) ≤ |x| < 2^1024`, which covers every amount the price panel can show. -/
def toBinary64 (x : ℚ) : ℚ :=
  if x = 0 then 0
  else
    let ulp : ℚ := (2 : ℚ) ^ (Int.log 2 |x| - 52)
    (roundHalfEven (x / ulp) : ℚ) * ulp

/-- The Number denoted by a decimal literal of the source text. -/
def lit (x : ℚ) : ℚ := toBinary64 x

/-- The operator `*` on Numbers: the exact product, rounded once. -/
def mul (a b : ℚ) : ℚ := toBinary64 (a * b)

/-- The code points matched by `\s` in a regular expression (ECMAScript WhiteSpace and
LineTerminator). -/
def isWhiteSpace (c : Char) : Bool :=
  let n := c.toNat
  n == 0x09 || n == 0x0A || n == 0x0B || n == 0x0C || n == 0x0D || n == 0x20 || n == 0xA0 ||
  n == 0x1680 || (0x2000 ≤ n && n ≤ 0x200A) || n == 0x2028 || n == 0x2029 || n == 0x202F ||
  n == 0x205F || n == 0x3000 || n == 0xFEFF

/-- The operator `!` on a string value: `!s` is `true` exactly for the empty string. -/
def falsy (s : String) : Bool := s == ""

end Js

/-! ## Regular expressions (the fragment used by the e-mail check) -/

/-- Syntax of the regular expressions needed for `/^[^@\s]+@[^@\s]+\.[^@\s]+$/`: character
classes, concatenation, alternation and iteration. -/
inductive Regex where
  | none : Regex
  | empty : Regex
  | cls (p : Char → Bool) : Regex
  | alt (a b : Regex) : Regex
  | seq (a b : Regex) : Regex
  | star (a : Regex) : Regex

namespace Regex

/-- The quantifier `+`: one or more repetitions. -/
def plus (a : Regex) : Regex := seq a (star a)

/-- A literal character. -/
def chr (c : Char) : Regex := cls (fun d => d == c)

/-- Whether the expression matches the empty input. -/
def nullable : Regex → Bool
  | none => false
  | empty => true
  | cls _ => false
  | alt a b => a.nullable || b.nullable
  | seq a b => a.nullable && b.nullable
  | star _ => true

/-- The expression matching the rest of an input whose first character `c` has been consumed. -/
def deriv : Regex → Char → Regex
  | none, _ => none
  | empty, _ => none
  | cls p, c => if p c then empty else none
  | alt a b, c => alt (a.deriv c) (b.deriv c)
  | seq a b, c => if a.nullable then alt (seq (a.deriv c) b) (b.deriv c) else seq (a.deriv c) b
  | star a, c => seq (a.deriv c) (star a)

/-- Anchored match `^r$` of a whole input: consume it character by character. -/
def matchAll : Regex → List Char → Bool
  | r, [] => r.nullable
  | r, c :: cs => matchAll (r.deriv c) cs

/-- The method `RegExp.prototype.test` for an expression anchored at both ends (no flags). -/
def test (r : Regex) (s : String) : Bool := matchAll r s.toList

/-- The inputs an expression denotes. -/
def Matches : Regex → List Char → Prop
  | none, _ => False
  | empty, s => s = []
  | cls p, s => ∃ c, s = [c] ∧ p c = true
  | alt a b, s => Matches a s ∨ Matches b s
  | seq a b, s => ∃ x y, s = x ++ y ∧ Matches a x ∧ Matches b y
  | star a, s => ∃ L : List (List Char), s = L.flatten ∧ ∀ y ∈ L, y ≠ [] ∧ Matches a y

end Regex

/-! ## `PRICES` and `PriceSummary` -/

/-- The shape of the constant `PRICES`. -/
structure Prices where
  whatsapp : Int
  social : Int
  user : Int
  broadcast : Int
  setup : Int
  deriving DecidableEq, Repr

/-- The constant `PRICES` (lines 14-20). -/
def PRICES : Prices :=
  { whatsapp := 150, social := 60, user := 50, broadcast := 97, setup := 297 }

/-- The two values a `billing` state cell takes: `"mensal"` and `"anual"`. -/
inductive Billing where
  | mensal
  | anual
  deriving DecidableEq, Repr

namespace PriceSummary

/-- The memoised `monthly` of `PriceSummary` (line 137). -/
def monthly (qWhats qSocial qUsers : Int) (broadcast : Bool) : Int :=
  qWhats * PRICES.whatsapp + qSocial * PRICES.social + qUsers * PRICES.user +
    (if broadcast then PRICES.broadcast else 0)

/-- The constant `yearlyMonthly = monthly * 0.8` of `PriceSummary` (line 140). -/
def yearlyMonthly (qWhats qSocial qUsers : Int) (broadcast : Bool) : ℚ :=
  Js.mul (monthly qWhats qSocial qUsers broadcast) (Js.lit 0.8)

/-- The constant `setup` of `PriceSummary` (line 141). -/
def setup (billing : Billing) : Int :=
  if billing = Billing.anual then 0 else PRICES.setup

end PriceSummary

/-! ## `RangeControl` -/

namespace RangeControl

/-- The numeric props of a `RangeControl`. -/
structure Props where
  min : Int := 0
  max : Int := 100
  step : Int := 1
  deriving DecidableEq, Repr

/-- The value handed to `setValue` by the "Diminuir" button (line 74). -/
def decrement (p : Props) (value : Int) : Int := Max.max p.min (value - p.step)

/-- The value handed to `setValue` by the "Aumentar" button (line 93). -/
def increment (p : Props) (value : Int) : Int := Min.min p.max (value + p.step)

/-- The value of the `input` of type `range` of lines 81-89, with its `min`, `max` and `step`
attributes, after a gesture that asks for the number `n`.  The element does not keep a number
outside its range or off its steps: a number below `min` becomes `min`, a number above `max`
becomes `max` (when `min ≤ max`), and the result is moved to the nearest number of the form
`min + k * step` within the range, the upper one of two equally near; a `step` that is not
positive counts as 1. -/
def inputValue (p : Props) (n : Int) : Int :=
  let step := if 0 < p.step then p.step else 1
  let v := if n < p.min then p.min else if p.min ≤ p.max ∧ p.max < n then p.max else n
  let w := p.min + (2 * (v - p.min) + step) / (2 * step) * step
  if p.min ≤ p.max ∧ p.max < w then w - step else w

/-- The value handed to `setValue` by the slider (line 87), `Number(e.target.value)`: the value of
the input element after a gesture that asks for the number `n`. -/
def onChange (p : Props) (n : Int) : Int := inputValue p n

end RangeControl

/-! ## `CheckoutModal` -/

/-- The names of the form fields, which are also the keys of the error mapping. -/
inductive Field where
  | nome | tel | email | cpf
  | cnpj | razao
  | cep | numero | complemento | bairro | cidade | estado
  deriving DecidableEq, Repr

/-- The state cell `form1` (personal data). -/
structure Form1 where
  nome : String
  tel : String
  email : String
  cpf : String
  deriving DecidableEq, Repr

/-- The state cell `form2` (company data). -/
structure Form2 where
  cnpj : String
  razao : String
  deriving DecidableEq, Repr

/-- The state cell `form3` (address). -/
structure Form3 where
  cep : String
  numero : String
  complemento : String
  bairro : String
  cidade : String
  estado : String
  deriving DecidableEq, Repr

/-- Property read `form3[k]`; a property the object does not have reads as `undefined`, which is
as falsy as the empty string. -/
def Form3.get (f : Form3) : Field → String
  | .cep => f.cep
  | .numero => f.numero
  | .complemento => f.complemento
  | .bairro => f.bairro
  | .cidade => f.cidade
  | .estado => f.estado
  | _ => ""

/-- An object used as a mapping from field name to message: its own properties in insertion
order. -/
abbrev Errors := List (Field × String)

namespace Errors

/-- The assignment `errs[k] = msg`. -/
def set (errs : Errors) (k : Field) (msg : String) : Errors :=
  if errs.any (fun e => e.1 == k) then errs.map (fun e => if e.1 == k then (k, msg) else e)
  else errs ++ [(k, msg)]

/-- The array `Object.keys(errs)`. -/
def keys (errs : Errors) : List Field := errs.map Prod.fst

end Errors

/-- The prop `payload` of `CheckoutModal` (line 403). -/
structure Payload where
  qWhats : Int
  qSocial : Int
  qUsers : Int
  broadcast : Bool
  monthly : Int
  deriving DecidableEq, Repr

/-- The property `plano` of the submitted object (lines 219-227). -/
structure Plano where
  billing : Billing
  qWhats : Int
  qSocial : Int
  qUsers : Int
  broadcast : Bool
  mensal : Int
  mensalAnual : ℚ
  deriving DecidableEq, Repr

/-- The object `data` built by `finish` (lines 218-231). -/
structure Order where
  plano : Plano
  dadosPessoais : Form1
  empresa : Form2
  endereco : Form3
  deriving DecidableEq, Repr

/-- A call that leaves the component. -/
inductive Effect where
  | consoleLog (label : String) (data : Order)
  | alert (msg : String)
  | onClose
  deriving DecidableEq, Repr

namespace CheckoutModal

/-- The hook state of one `CheckoutModal` instance (lines 181-186). -/
structure State where
  step : Int
  billing : Billing
  form1 : Form1
  form2 : Form2
  form3 : Form3
  errors : Errors
  deriving DecidableEq, Repr

/-- The initial values given to `useState` (lines 181-186). -/
def init : State :=
  { step := 1
    billing := Billing.mensal
    form1 := { nome := "", tel := "", email := "", cpf := "" }
    form2 := { cnpj := "", razao := "" }
    form3 := { cep := "", numero := "", complemento := "", bairro := "", cidade := "",
               estado := "" }
    errors := [] }

/-- The character class `[^@\s]`. -/
def notAtOrSpace : Regex := Regex.cls (fun c => !(c == '@' || Js.isWhiteSpace c))

/-- The regular expression `/^[^@\s]+@[^@\s]+\.[^@\s]+$/` of line 196. -/
def emailRegex : Regex :=
  Regex.seq (Regex.plus notAtOrSpace)
    (Regex.seq (Regex.chr '@')
      (Regex.seq (Regex.plus notAtOrSpace)
        (Regex.seq (Regex.chr '.') (Regex.plus notAtOrSpace))))

/-- The constant `monthly = payload.monthly` (line 188). -/
def monthly (payload : Payload) : Int := payload.monthly

/-- The constant `annualMonthly = monthly * 0.8` (line 189). -/
def annualMonthly (payload : Payload) : ℚ := Js.mul (monthly payload) (Js.lit 0.8)

/-- The object `errs` that `validate` has built when it reaches `setErrors` (lines 192-202). -/
def validateErrs (s : State) : Errors :=
  let errs : Errors := []
  if s.step = 1 then
    let errs := if Js.falsy s.form1.nome then errs.set Field.nome "Obrigatório" else errs
    let errs := if Js.falsy s.form1.tel then errs.set Field.tel "Obrigatório" else errs
    let errs :=
      if Js.falsy s.form1.email || !(emailRegex.test s.form1.email) then
        errs.set Field.email "E-mail inválido"
      else errs
    let errs := if Js.falsy s.form1.cpf then errs.set Field.cpf "Obrigatório" else errs
    errs
  else if s.step = 3 then
    [Field.cep, Field.numero, Field.bairro, Field.cidade, Field.estado].foldl
      (fun errs k => if Js.falsy (s.form3.get k) then errs.set k "Obrigatório" else errs) errs
  else errs

/-- The function `validate` (lines 191-205): the returned boolean and the state after
`setErrors(errs)`. -/
def validate (s : State) : Bool × State :=
  let errs := validateErrs s
  (errs.keys.length == 0, { s with errors := errs })

/-- The function `next` (lines 207-210). -/
def next (s : State) : State :=
  let (ok, s) := validate s
  if !ok then s
  else { s with step := Min.min 3 (s.step + 1) }

/-- The function `prev` (lines 212-214). -/
def prev (s : State) : State :=
  { s with step := Max.max 1 (s.step - 1) }

/-- The function `finish` (lines 216-236): the state after it and the calls it made. -/
def finish (payload : Payload) (s : State) : State × List Effect :=
  let (ok, s') := validate s
  if !ok then (s', [])
  else
    let data : Order :=
      { plano :=
          { billing := s.billing
            qWhats := payload.qWhats
            qSocial := payload.qSocial
            qUsers := payload.qUsers
            broadcast := payload.broadcast
            mensal := monthly payload
            mensalAnual := annualMonthly payload }
        dadosPessoais := s.form1
        empresa := s.form2
        endereco := s.form3 }
    (s', [Effect.consoleLog "Checkout submetido:" data,
          Effect.alert "Plano enviado! Veja os dados no console do navegador.",
          Effect.onClose])

/-- The `onChange` handlers of the inputs of step 1 (lines 300-314):
a copy of `form1` with the field `k` replaced by the text of the input. -/
def setForm1 (s : State) (k : Field) (v : String) : State :=
  match k with
  | .nome => { s with form1 := { s.form1 with nome := v } }
  | .tel => { s with form1 := { s.form1 with tel := v } }
  | .email => { s with form1 := { s.form1 with email := v } }
  | .cpf => { s with form1 := { s.form1 with cpf := v } }
  | _ => s

/-- The `onChange` handlers of the inputs of step 2 (lines 325-328). -/
def setForm2 (s : State) (k : Field) (v : String) : State :=
  match k with
  | .cnpj => { s with form2 := { s.form2 with cnpj := v } }
  | .razao => { s with form2 := { s.form2 with razao := v } }
  | _ => s

/-- The `onChange` handlers of the inputs of step 3 (lines 338-361). -/
def setForm3 (s : State) (k : Field) (v : String) : State :=
  match k with
  | .cep => { s with form3 := { s.form3 with cep := v } }
  | .numero => { s with form3 := { s.form3 with numero := v } }
  | .complemento => { s with form3 := { s.form3 with complemento := v } }
  | .bairro => { s with form3 := { s.form3 with bairro := v } }
  | .cidade => { s with form3 := { s.form3 with cidade := v } }
  | .estado => { s with form3 := { s.form3 with estado := v } }
  | _ => s

/-- The two billing buttons of the modal (lines 280 and 287). -/
def setBilling (s : State) (b : Billing) : State := { s with billing := b }

end CheckoutModal

/-! ## `PlanoPersonalizado` -/

/-- The three `RangeControl` instances of the panel. -/
inductive Control where
  | whats
  | social
  | users
  deriving DecidableEq, Repr

namespace PlanoPersonalizado

/-- The hook state of `PlanoPersonalizado` (lines 390-395). -/
structure State where
  qWhats : Int
  qSocial : Int
  qUsers : Int
  broadcast : Bool
  billing : Billing
  openCheckout : Bool
  deriving DecidableEq, Repr

/-- The initial values given to `useState` (lines 390-395). -/
def init : State :=
  { qWhats := 10, qSocial := 15, qUsers := 50, broadcast := true, billing := Billing.mensal,
    openCheckout := false }

/-- The memoised `monthly` of the panel (line 398). -/
def monthly (s : State) : Int :=
  s.qWhats * PRICES.whatsapp + s.qSocial * PRICES.social + s.qUsers * PRICES.user +
    (if s.broadcast then PRICES.broadcast else 0)

/-- The constant `annualMonthly = monthly * 0.8` of the panel (line 401). -/
def annualMonthly (s : State) : ℚ := Js.mul (monthly s) (Js.lit 0.8)

/-- The object `payload` built by each render of the panel (line 403). -/
def payload (s : State) : Payload :=
  { qWhats := s.qWhats, qSocial := s.qSocial, qUsers := s.qUsers, broadcast := s.broadcast,
    monthly := monthly s }

/-- The `min`, `max` and `step` props given to each control (lines 417-419). -/
def props : Control → RangeControl.Props
  | .whats => { min := 0, max := 50, step := 1 }
  | .social => { min := 0, max := 50, step := 1 }
  | .users => { min := 1, max := 250, step := 1 }

/-- The `value` prop given to each control (lines 417-419). -/
def value (s : State) : Control → Int
  | .whats => s.qWhats
  | .social => s.qSocial
  | .users => s.qUsers

/-- The `setValue` prop given to each control (lines 417-419). -/
def setValue (s : State) (c : Control) (v : Int) : State :=
  match c with
  | .whats => { s with qWhats := v }
  | .social => { s with qSocial := v }
  | .users => { s with qUsers := v }

end PlanoPersonalizado

/-! ## The mounted component tree -/

/-- A user event on one of the rendered elements. -/
inductive Action where
  | decrement (c : Control)
  | increment (c : Control)
  | slide (c : Control) (n : Int)
  | toggleBroadcast
  | panelBilling (b : Billing)
  | contratar
  | close
  | modalBilling (b : Billing)
  | edit1 (k : Field) (v : String)
  | edit2 (k : Field) (v : String)
  | edit3 (k : Field) (v : String)
  | next
  | prev
  | finish
  deriving DecidableEq, Repr

/-- The state of the page: the panel, the `CheckoutModal` instance the panel renders (it is
rendered on every render of the panel, with `open` as a prop, so its hook state lives as long as
the panel), and what has been written to the console and shown by `alert` so far. -/
structure App where
  panel : PlanoPersonalizado.State
  modal : CheckoutModal.State
  console : List Order
  alerts : List String
  deriving DecidableEq, Repr

namespace App

/-- The page after mounting. -/
def init : App :=
  { panel := PlanoPersonalizado.init, modal := CheckoutModal.init, console := [], alerts := [] }

/-- The `payload` prop the modal currently receives (lines 403 and 474). -/
def payload (a : App) : Payload := PlanoPersonalizado.payload a.panel

/-- Carry out one call made by the modal: `console.log` and `alert` are recorded, `onClose` is
the panel's `() => setOpenCheckout(false)` (line 473). -/
def perform (a : App) : Effect → App
  | .consoleLog _ data => { a with console := a.console ++ [data] }
  | .alert msg => { a with alerts := a.alerts ++ [msg] }
  | .onClose => { a with panel := { a.panel with openCheckout := false } }

/-- The page after one user event. -/
def step (a : App) : Action → App
  | .decrement c =>
    let v := RangeControl.decrement (PlanoPersonalizado.props c) (PlanoPersonalizado.value a.panel c)
    { a with panel := PlanoPersonalizado.setValue a.panel c v }
  | .increment c =>
    let v := RangeControl.increment (PlanoPersonalizado.props c) (PlanoPersonalizado.value a.panel c)
    { a with panel := PlanoPersonalizado.setValue a.panel c v }
  | .slide c n =>
    let v := RangeControl.onChange (PlanoPersonalizado.props c) n
    { a with panel := PlanoPersonalizado.setValue a.panel c v }
  | .toggleBroadcast => { a with panel := { a.panel with broadcast := !a.panel.broadcast } }
  | .panelBilling b => { a with panel := { a.panel with billing := b } }
  | .contratar => { a with panel := { a.panel with openCheckout := true } }
  | .close => perform a Effect.onClose
  | .modalBilling b => { a with modal := CheckoutModal.setBilling a.modal b }
  | .edit1 k v => { a with modal := CheckoutModal.setForm1 a.modal k v }
  | .edit2 k v => { a with modal := CheckoutModal.setForm2 a.modal k v }
  | .edit3 k v => { a with modal := CheckoutModal.setForm3 a.modal k v }
  | .next => { a with modal := CheckoutModal.next a.modal }
  | .prev => { a with modal := CheckoutModal.prev a.modal }
  | .finish =>
    let (m, effects) := CheckoutModal.finish (payload a) a.modal
    effects.foldl perform { a with modal := m }

/-- The page after a sequence of user events. -/
def run (a : App) (acts : List Action) : App := acts.foldl step a

/-- Whether the element that raises the event is on the page: the panel's elements always are,
the modal's only while `open` holds (line 238), the inputs of a step only at that step (lines 296,
321, 334), "Voltar" only after step 1 (line 372), and "Próximo" or else "Finalizar" according to
`step < 3` (line 375). -/
def rendered (a : App) : Action → Bool
  | .decrement _ | .increment _ | .slide _ _ | .toggleBroadcast | .panelBilling _
  | .contratar => true
  | .close | .modalBilling _ => a.panel.openCheckout
  | .edit1 k _ =>
    a.panel.openCheckout && a.modal.step == 1 &&
      (k == Field.nome || k == Field.tel || k == Field.email || k == Field.cpf)
  | .edit2 k _ =>
    a.panel.openCheckout && a.modal.step == 2 && (k == Field.cnpj || k == Field.razao)
  | .edit3 k _ =>
    a.panel.openCheckout && a.modal.step == 3 &&
      (k == Field.cep || k == Field.numero || k == Field.complemento || k == Field.bairro ||
        k == Field.cidade || k == Field.estado)
  | .prev => a.panel.openCheckout && decide (a.modal.step > 1)
  | .next => a.panel.openCheckout && decide (a.modal.step < 3)
  | .finish => a.panel.openCheckout && !decide (a.modal.step < 3)

end App

namespace Action

/-- Whether an event comes from a quantity control or from the broadcast toggle. -/
def onPlanControl : Action → Bool
  | .decrement _ | .increment _ | .slide _ _ | .toggleBroadcast => true
  | _ => false

end Action

/-! ## Events and the elements that raise them -/

namespace App

/-- Whether the modal shows, at its current step, the element that raises the event: the inputs of
form 1 at step 1 only (line 296), those of form 2 at step 2 only (line 321), those of form 3 at
step 3 only (line 334), and "Finalizar Contratação" only when `step < 3` fails (line 375).  Every
element for which `rendered` holds is one of these. -/
def displayed (a : App) : Action → Bool
  | .edit1 _ _ => a.modal.step == 1
  | .edit2 _ _ => a.modal.step == 2
  | .edit3 _ _ => a.modal.step == 3
  | .finish => !decide (a.modal.step < 3)
  | _ => true

/-- The page after an event, an event of an element the modal does not show at the current step
having no handler to run. -/
def dispatch (a : App) (act : Action) : App :=
  if displayed a act then step a act else a

/-- The page after a sequence of events, each raised by an element shown when it occurs. -/
def visit (a : App) (acts : List Action) : App := acts.foldl dispatch a

end App

namespace CheckoutModal

/-- Whether `validate`, run at step 1 on the personal-data form `f`, returns `true`. -/
def passesStep1 (f : Form1) : Bool := (validate { init with step := 1, form1 := f }).1

/-- Whether `validate`, run at step 3 on the address form `f`, returns `true`. -/
def passesStep3 (f : Form3) : Bool := (validate { init with step := 3, form3 := f }).1

end CheckoutModal

/-! ## Example states -/

/-- The events of a complete checkout: open, fill the personal data, skip the company data, fill
the address and submit. -/
def exampleCheckout : List Action :=
  [Action.contratar, Action.edit1 Field.nome "Ana", Action.edit1 Field.tel "11999999999",
    Action.edit1 Field.email "a@b.com", Action.edit1 Field.cpf "123", Action.next, Action.next,
    Action.edit3 Field.cep "01310-100", Action.edit3 Field.numero "1000",
    Action.edit3 Field.bairro "Bela Vista", Action.edit3 Field.cidade "São Paulo",
    Action.edit3 Field.estado "SP", Action.finish]

/-- A filled personal-data form. -/
def exampleForm1 : Form1 :=
  { nome := "Ana", tel := "11999999999", email := "a@b.com", cpf := "123" }

/-- A filled address form, without complement. -/
def exampleForm3 : Form3 :=
  { cep := "01310-100", numero := "1000", complemento := "", bairro := "Bela Vista",
    cidade := "São Paulo", estado := "SP" }

/-- The page with the modal open at step 3 and both required forms filled. -/
def exampleAtStep3 : App :=
  { App.init with
    panel := { PlanoPersonalizado.init with openCheckout := true }
    modal := { CheckoutModal.init with step := 3, form1 := exampleForm1, form3 := exampleForm3 } }

/-- The events of a visit: open the checkout, fill the personal data, go to step 2 and choose
annual billing. -/
def exampleVisit : List Action :=
  [Action.contratar, Action.edit1 Field.nome "Ana", Action.edit1 Field.tel "11999999999",
    Action.edit1 Field.email "a@b.com", Action.edit1 Field.cpf "123", Action.next,
    Action.modalBilling Billing.anual]

/-! ## Predicates used to state the properties -/

/-- The values of the three quantities lie within the `min` and `max` of their controls. -/
def WithinBounds (p : PlanoPersonalizado.State) : Prop :=
  ∀ c : Control, (PlanoPersonalizado.props c).min ≤ PlanoPersonalizado.value p c ∧
    PlanoPersonalizado.value p c ≤ (PlanoPersonalizado.props c).max

/-- The step of the wizard is one of 1, 2, 3. -/
def StepInRange (s : CheckoutModal.State) : Prop := s.step = 1 ∨ s.step = 2 ∨ s.step = 3

/-- The step of the wizard is 1, 2 or 3; past step 1 the personal-data form passes step-1
validation; every order written to the console has personal data passing step-1 validation and an
address passing step-3 validation. -/
def CarriesValidData (a : App) : Prop :=
  StepInRange a.modal ∧
  (a.modal.step = 2 ∨ a.modal.step = 3 → CheckoutModal.passesStep1 a.modal.form1 = true) ∧
  ∀ o ∈ a.console,
    CheckoutModal.passesStep1 o.dadosPessoais = true ∧ CheckoutModal.passesStep3 o.endereco = true

/-! ## The shape of an e-mail address, in the words of the specification -/

/-- A character that is neither `@` nor whitespace. -/
def PlainChar (c : Char) : Prop := c ≠ '@' ∧ Js.isWhiteSpace c = false

/-- The shape `local@domain.tld`: a non-empty local part without `@` or whitespace, then `@`, then
a domain without `@` or whitespace that contains a dot with at least one character on each side. -/
def EmailShape (s : String) : Prop :=
  ∃ loc dom : List Char, s.toList = loc ++ '@' :: dom ∧ loc ≠ [] ∧ (∀ c ∈ loc, PlainChar c) ∧
    (∀ c ∈ dom, PlainChar c) ∧ ∃ a b : List Char, dom = a ++ '.' :: b ∧ a ≠ [] ∧ b ≠ []

/-! ## Correctness of the matcher -/

namespace Regex

theorem nullable_iff (r : Regex) : r.nullable = true ↔ Matches r [] := by
  induction r with
  | none => simp [nullable, Matches]
  | empty => simp [nullable, Matches]
  | cls p => simp [nullable, Matches]
  | alt a b iha ihb => simp [nullable, Matches, iha, ihb]
  | seq a b iha ihb =>
    simp only [nullable, Matches, Bool.and_eq_true, iha, ihb]
    constructor
    · rintro ⟨ha, hb⟩
      exact ⟨[], [], rfl, ha, hb⟩
    · rintro ⟨x, y, hxy, ha, hb⟩
      have h := List.append_eq_nil.mp hxy.symm
      rw [h.1] at ha
      rw [h.2] at hb
      exact ⟨ha, hb⟩
  | star a _ =>
    simp only [nullable, Matches, true_iff]
    exact ⟨[], rfl, by simp⟩

theorem matches_seq_cons (a b : Regex) (c : Char) (s : List Char) :
    Matches (seq a b) (c :: s) ↔
      (Matches a [] ∧ Matches b (c :: s)) ∨
        ∃ x y, s = x ++ y ∧ Matches a (c :: x) ∧ Matches b y := by
  simp only [Matches]
  constructor
  · rintro ⟨x, y, hxy, ha, hb⟩
    cases x with
    | nil =>
      simp only [List.nil_append] at hxy
      subst hxy
      exact Or.inl ⟨ha, hb⟩
    | cons d x =>
      simp only [List.cons_append, List.cons.injEq] at hxy
      obtain ⟨rfl, rfl⟩ := hxy
      exact Or.inr ⟨x, y, rfl, ha, hb⟩
  · rintro (⟨ha, hb⟩ | ⟨x, y, rfl, ha, hb⟩)
    · exact ⟨[], c :: s, rfl, ha, hb⟩
    · exact ⟨c :: x, y, rfl, ha, hb⟩

theorem matches_star_cons (a : Regex) (c : Char) (s : List Char) :
    Matches (star a) (c :: s) ↔
      ∃ x y, s = x ++ y ∧ Matches a (c :: x) ∧ Matches (star a) y := by
  simp only [Matches]
  constructor
  · rintro ⟨L, hL, hall⟩
    cases L with
    | nil => simp at hL
    | cons z L =>
      have hz := hall z (List.mem_cons_self _ _)
      cases z with
      | nil => exact absurd rfl hz.1
      | cons d z =>
        simp only [List.flatten_cons, List.cons_append, List.cons.injEq] at hL
        obtain ⟨rfl, rfl⟩ := hL
        exact ⟨z, L.flatten, rfl, hz.2, L, rfl,
          fun y hy => hall y (List.mem_cons_of_mem _ hy)⟩
  · rintro ⟨x, y, rfl, ha, L, rfl, hall⟩
    refine ⟨(c :: x) :: L, by simp, ?_⟩
    intro y hy
    rcases List.mem_cons.mp hy with rfl | hy
    · exact ⟨by simp, ha⟩
    · exact hall y hy

theorem deriv_iff (r : Regex) (c : Char) (s : List Char) :
    Matches (r.deriv c) s ↔ Matches r (c :: s) := by
  induction r generalizing s with
  | none => simp [deriv, Matches]
  | empty => simp [deriv, Matches]
  | cls p =>
    by_cases hp : p c = true
    · simp only [deriv, hp, if_true, Matches]
      constructor
      · rintro rfl
        exact ⟨c, rfl, hp⟩
      · rintro ⟨d, hd, _⟩
        simp only [List.cons.injEq] at hd
        exact hd.2
    · simp only [deriv, hp, Matches, false_iff]
      rintro ⟨d, hd, hpd⟩
      simp only [List.cons.injEq] at hd
      rw [← hd.1] at hpd
      exact hp hpd
  | alt a b iha ihb => simp [deriv, Matches, iha, ihb]
  | seq a b iha ihb =>
    rw [matches_seq_cons, ← nullable_iff]
    by_cases hn : a.nullable = true
    · simp only [deriv, hn, if_true, Matches, iha, ihb, true_and]
      exact or_comm
    · simp only [deriv, hn, Matches, iha, false_and, false_or]
      simp
  | star a iha =>
    rw [matches_star_cons]
    simp only [deriv, Matches, iha]

theorem matchAll_iff (r : Regex) (s : List Char) : r.matchAll s = true ↔ Matches r s := by
  induction s generalizing r with
  | nil => simpa [matchAll] using nullable_iff r
  | cons c s ih => simp [matchAll, ih, deriv_iff]

theorem matches_star_cls (p : Char → Bool) (s : List Char) :
    Matches (star (cls p)) s ↔ ∀ c ∈ s, p c = true := by
  induction s with
  | nil =>
    simp only [List.not_mem_nil, false_implies, implies_true, iff_true]
    exact (nullable_iff _).mp rfl
  | cons c s ih =>
    rw [matches_star_cons]
    constructor
    · rintro ⟨x, y, rfl, ⟨d, hd, hpd⟩, hy⟩
      simp only [List.cons.injEq] at hd
      obtain ⟨rfl, rfl⟩ := hd
      simp only [List.nil_append] at ih
      intro e he
      rcases List.mem_cons.mp he with rfl | he
      · exact hpd
      · exact ih.mp hy e he
    · intro h
      refine ⟨[], s, rfl, ⟨c, rfl, h c (List.mem_cons_self _ _)⟩, ?_⟩
      exact ih.mpr (fun e he => h e (List.mem_cons_of_mem _ he))

theorem matches_plus_cls (p : Char → Bool) (s : List Char) :
    Matches (plus (cls p)) s ↔ s ≠ [] ∧ ∀ c ∈ s, p c = true := by
  cases s with
  | nil =>
    simp only [ne_eq, not_true_eq_false, false_and, iff_false, plus]
    intro h
    have := (nullable_iff _).mpr h
    simp [nullable] at this
  | cons c s =>
    rw [plus, matches_seq_cons]
    simp only [Matches, ne_eq, reduceCtorEq, not_false_eq_true, true_and, List.mem_cons,
      forall_eq_or_imp]
    constructor
    · rintro (⟨⟨d, hd, _⟩, _⟩ | ⟨x, y, rfl, ⟨d, hd, hpd⟩, hy⟩)
      · simp at hd
      · simp only [List.cons.injEq] at hd
        obtain ⟨rfl, rfl⟩ := hd
        exact ⟨hpd, (matches_star_cls p _).mp hy⟩
    · rintro ⟨hc, hs⟩
      exact Or.inr ⟨[], s, rfl, ⟨c, rfl, hc⟩, (matches_star_cls p s).mpr hs⟩

theorem matches_chr (c : Char) (s : List Char) : Matches (chr c) s ↔ s = [c] := by
  simp only [chr, Matches, beq_iff_eq]
  constructor
  · rintro ⟨d, rfl, rfl⟩
    rfl
  · rintro rfl
    exact ⟨c, rfl, rfl⟩

end Regex

theorem plainChar_iff (c : Char) :
    (!(c == '@' || Js.isWhiteSpace c)) = true ↔ PlainChar c := by
  simp [PlainChar]

theorem plainChar_dot : PlainChar '.' := by
  constructor <;> decide

/-- The regular expression of line 196 accepts exactly the strings of the shape
`local@domain.tld`. -/
theorem emailRegex_test_iff (s : String) :
    CheckoutModal.emailRegex.test s = true ↔ EmailShape s := by
  simp only [Regex.test, Regex.matchAll_iff, CheckoutModal.emailRegex,
    CheckoutModal.notAtOrSpace, EmailShape]
  constructor
  · intro h
    obtain ⟨x1, y1, h1, hp1, h⟩ := h
    obtain ⟨x2, y2, rfl, hat, h⟩ := h
    obtain ⟨x3, y3, rfl, hp3, h⟩ := h
    obtain ⟨x4, y4, rfl, hdot, hp4⟩ := h
    rw [Regex.matches_plus_cls] at hp1 hp3 hp4
    rw [Regex.matches_chr] at hat hdot
    subst hat hdot
    refine ⟨x1, x3 ++ '.' :: y4, by simpa using h1, hp1.1, ?_, ?_, x3, y4, rfl, hp3.1, hp4.1⟩
    · exact fun c hc => (plainChar_iff c).mp (hp1.2 c hc)
    · intro c hc
      rcases List.mem_append.mp hc with hc | hc
      · exact (plainChar_iff c).mp (hp3.2 c hc)
      · rcases List.mem_cons.mp hc with rfl | hc
        · exact plainChar_dot
        · exact (plainChar_iff c).mp (hp4.2 c hc)
  · rintro ⟨loc, dom, hs, hloc, hpl, hpd, a, b, rfl, ha, hb⟩
    refine ⟨loc, '@' :: (a ++ '.' :: b), hs, ?_, ['@'], a ++ '.' :: b, rfl, ?_,
      a, '.' :: b, rfl, ?_, ['.'], b, rfl, ?_, ?_⟩
    · rw [Regex.matches_plus_cls]
      exact ⟨hloc, fun c hc => (plainChar_iff c).mpr (hpl c hc)⟩
    · rw [Regex.matches_chr]
    · rw [Regex.matches_plus_cls]
      exact ⟨ha, fun c hc => (plainChar_iff c).mpr (hpd c (List.mem_append_left _ hc))⟩
    · rw [Regex.matches_chr]
    · rw [Regex.matches_plus_cls]
      refine ⟨hb, fun c hc => (plainChar_iff c).mpr (hpd c ?_)⟩
      exact List.mem_append_right _ (List.mem_cons_of_mem _ hc)

theorem App.run_invariant (P : App → Prop) (acts : List Action) (a : App) (h0 : P a)
    (hstep : ∀ b act, act ∈ acts → P b → P (App.step b act)) : P (App.run a acts) := by
  induction acts generalizing a with
  | nil => exact h0
  | cons act acts ih =>
    simp only [App.run, List.foldl_cons]
    exact ih (App.step a act) (hstep a act (List.mem_cons_self _ _) h0)
      (fun b act' hm hb => hstep b act' (List.mem_cons_of_mem _ hm) hb)

theorem falsy_iff (s : String) : Js.falsy s = true ↔ s = "" := by
  simp [Js.falsy]

/-! ## Binary64 rounding -/

theorem roundHalfEven_eq (y : ℚ) (m : ℤ) (h : |y - m| < 1 / 2) : Js.roundHalfEven y = m := by
  rw [abs_lt] at h
  unfold Js.roundHalfEven
  by_cases hym : (m : ℚ) ≤ y
  · have hf : ⌊y⌋ = m := by
      rw [Int.floor_eq_iff]
      constructor
      · exact hym
      · linarith [h.2]
    simp only [hf]
    rw [if_pos h.2]
  · have hf : ⌊y⌋ = m - 1 := by
      rw [Int.floor_eq_iff]
      push_cast
      constructor
      · linarith [h.1]
      · linarith
    simp only [hf]
    push_cast
    rw [if_neg (by linarith [h.1]), if_pos (by linarith [h.1])]
    ring

theorem log_two_eq (x : ℚ) (e : ℤ) (hx : 0 < x) (hlo : (2 : ℚ) ^ e ≤ x)
    (hhi : x < (2 : ℚ) ^ (e + 1)) : Int.log 2 x = e := by
  have h1 : e ≤ Int.log 2 x := by
    have := (Int.zpow_le_iff_le_log (b := 2) (by norm_num) (x := e) hx).mp (by exact_mod_cast hlo)
    exact this
  have h2 : Int.log 2 x < e + 1 := by
    have := (Int.lt_zpow_iff_log_lt (b := 2) (by norm_num) (x := e + 1) hx).mp
      (by exact_mod_cast hhi)
    exact this
  omega

theorem toBinary64_eq (x : ℚ) (e m : ℤ) (hx : 0 < x) (hlo : (2 : ℚ) ^ e ≤ x)
    (hhi : x < (2 : ℚ) ^ (e + 1)) (hm : |x / (2 : ℚ) ^ (e - 52) - m| < 1 / 2) :
    Js.toBinary64 x = m * (2 : ℚ) ^ (e - 52) := by
  unfold Js.toBinary64
  rw [if_neg (ne_of_gt hx), abs_of_pos hx, log_two_eq x e hx hlo hhi]
  simp only
  rw [roundHalfEven_eq _ m hm]

theorem lit_08 : Js.lit 0.8 = 3602879701896397 / 4503599627370496 := by
  unfold Js.lit
  rw [toBinary64_eq 0.8 (-1) 7205759403792794 (by norm_num) (by norm_num) (by norm_num)
    (by rw [abs_lt]; norm_num)]
  norm_num

theorem mul_4997 : Js.mul 4997 (Js.lit 0.8) = 2197703841598669 / 549755813888 := by
  unfold Js.mul
  rw [lit_08, toBinary64_eq _ 11 8790815366394676 (by norm_num) (by norm_num) (by norm_num)
    (by rw [abs_lt]; norm_num)]
  norm_num

theorem roundHalfEven_err (y : ℚ) : |(Js.roundHalfEven y : ℚ) - y| ≤ 1 / 2 := by
  have h1 := Int.floor_le y
  have h2 := Int.lt_floor_add_one y
  unfold Js.roundHalfEven
  simp only
  rw [abs_le]
  split_ifs with ha hb hc
  · constructor <;> linarith
  · push_cast
    constructor <;> linarith
  · constructor <;> linarith
  · push_cast
    have : y - ⌊y⌋ = 1 / 2 := le_antisymm (not_lt.mp hb) (not_lt.mp ha)
    constructor <;> linarith

theorem toBinary64_err (x : ℚ) : |Js.toBinary64 x - x| ≤ |x| / 2 ^ 53 := by
  unfold Js.toBinary64
  by_cases hx : x = 0
  · simp [hx]
  · rw [if_neg hx]
    simp only
    have hpos : (0 : ℚ) < (2 : ℚ) ^ (Int.log 2 |x| - 52) := zpow_pos (by norm_num) _
    have hlog : (2 : ℚ) ^ Int.log 2 |x| ≤ |x| := by
      have := Int.zpow_log_le_self (b := 2) (r := |x|) (by norm_num) (abs_pos.mpr hx)
      exact_mod_cast this
    have hulp : (2 : ℚ) ^ (Int.log 2 |x| - 52) = (2 : ℚ) ^ Int.log 2 |x| / 2 ^ 52 := by
      rw [zpow_sub₀ (by norm_num)]
      norm_num
    have herr := roundHalfEven_err (x / (2 : ℚ) ^ (Int.log 2 |x| - 52))
    have hrw : (Js.roundHalfEven (x / (2 : ℚ) ^ (Int.log 2 |x| - 52)) : ℚ) *
          (2 : ℚ) ^ (Int.log 2 |x| - 52) - x =
        ((Js.roundHalfEven (x / (2 : ℚ) ^ (Int.log 2 |x| - 52)) : ℚ) -
          x / (2 : ℚ) ^ (Int.log 2 |x| - 52)) * (2 : ℚ) ^ (Int.log 2 |x| - 52) := by
      field_simp
    rw [hrw, abs_mul, abs_of_pos hpos]
    calc _ ≤ 1 / 2 * (2 : ℚ) ^ (Int.log 2 |x| - 52) :=
          mul_le_mul_of_nonneg_right herr hpos.le
      _ = (2 : ℚ) ^ Int.log 2 |x| / 2 ^ 53 := by rw [hulp]; ring
      _ ≤ |x| / 2 ^ 53 := by
          apply div_le_div_of_nonneg_right hlog
          positivity

theorem mul_08_err (m : ℤ) : |Js.mul m (Js.lit 0.8) - 4 / 5 * m| ≤ |(m : ℚ)| / 2 ^ 52 := by
  unfold Js.mul
  rw [lit_08]
  have h := toBinary64_err ((m : ℚ) * (3602879701896397 / 4503599627370496))
  have habs : |(m : ℚ) * (3602879701896397 / 4503599627370496)| =
      |(m : ℚ)| * (3602879701896397 / 4503599627370496) := by
    rw [abs_mul, abs_of_pos (by norm_num : (0 : ℚ) < 3602879701896397 / 4503599627370496)]
  have hd : |(m : ℚ) * (3602879701896397 / 4503599627370496) - 4 / 5 * m| =
      |(m : ℚ)| * (1 / 22517998136852480) := by
    rw [show (m : ℚ) * (3602879701896397 / 4503599627370496) - 4 / 5 * m =
      (m : ℚ) * (1 / 22517998136852480) by ring, abs_mul,
      abs_of_pos (by norm_num : (0 : ℚ) < 1 / 22517998136852480)]
  have hm := abs_nonneg (m : ℚ)
  calc |Js.toBinary64 ((m : ℚ) * (3602879701896397 / 4503599627370496)) - 4 / 5 * m|
      ≤ |Js.toBinary64 ((m : ℚ) * (3602879701896397 / 4503599627370496)) -
          (m : ℚ) * (3602879701896397 / 4503599627370496)| +
        |(m : ℚ) * (3602879701896397 / 4503599627370496) - 4 / 5 * m| := abs_sub_le _ _ _
    _ ≤ |(m : ℚ)| * (3602879701896397 / 4503599627370496) / 2 ^ 53 +
          |(m : ℚ)| * (1 / 22517998136852480) := by
        rw [← habs, hd]
        linarith
    _ ≤ |(m : ℚ)| / 2 ^ 52 := by
        have : |(m : ℚ)| * (3602879701896397 / 4503599627370496) / 2 ^ 53 +
            |(m : ℚ)| * (1 / 22517998136852480) =
            |(m : ℚ)| * (3602879701896397 / 4503599627370496 / 2 ^ 53 +
              1 / 22517998136852480) := by ring
        rw [this, show |(m : ℚ)| / 2 ^ 52 = |(m : ℚ)| * (1 / 2 ^ 52) by ring]
        exact mul_le_mul_of_nonneg_left (by norm_num) hm

theorem mul_08_exact (j : ℕ) (hj : 0 < j) (hlt : 4 * j < 2 ^ 53) :
    Js.mul ((5 * j : ℕ) : ℤ) (Js.lit 0.8) = 4 * j := by
  obtain ⟨e, he⟩ : ∃ e, e = Nat.log 2 (4 * j) := ⟨_, rfl⟩
  have hP1 : 2 ^ e ≤ 4 * j := he ▸ Nat.pow_log_le_self 2 (by omega)
  have hP2 : 4 * j < 2 ^ (e + 1) := he ▸ Nat.lt_pow_succ_log_self (by norm_num) _
  have he52 : e ≤ 52 := by
    have : 2 ^ e < 2 ^ 53 := lt_of_le_of_lt hP1 hlt
    have := (Nat.pow_lt_pow_iff_right (by norm_num : 1 < 2)).mp this
    omega
  have hPQ : 2 ^ e * 2 ^ (52 - e) = 2 ^ 52 := by
    rw [← pow_add]
    congr 1
    omega
  generalize hPdef : 2 ^ e = P at hP1 hPQ
  generalize hQdef : 2 ^ (52 - e) = Q at hPQ
  have hP2' : 4 * j < 2 * P := by rw [← hPdef, ← pow_succ']; exact hP2
  have hPpos : (0 : ℚ) < P := by
    have : 0 < P := by rw [← hPdef]; positivity
    exact_mod_cast this
  have hQpos : (0 : ℚ) < Q := by
    have : 0 < Q := by rw [← hQdef]; positivity
    exact_mod_cast this
  have hjq : (0 : ℚ) < j := by exact_mod_cast hj
  have hPQq : (P : ℚ) * Q = 2 ^ 52 := by exact_mod_cast hPQ
  have h1q : (P : ℚ) ≤ 4 * j := by exact_mod_cast hP1
  have h2q : (4 : ℚ) * j + 1 ≤ 2 * P := by exact_mod_cast hP2'
  have h3q : (4 : ℚ) * j < 2 ^ 53 := by exact_mod_cast hlt
  have hz1 : (2 : ℚ) ^ (e : ℤ) = P := by
    rw [zpow_natCast, ← hPdef]
    push_cast
    rfl
  have hz2 : (2 : ℚ) ^ ((e : ℤ) + 1) = 2 * P := by
    rw [zpow_add_one₀ (by norm_num), hz1]
    ring
  have hz3 : (2 : ℚ) ^ ((e : ℤ) - 52) = 1 / Q := by
    rw [zpow_sub₀ (by norm_num), hz1]
    rw [show (2 : ℚ) ^ (52 : ℤ) = (P : ℚ) * Q by rw [hPQq]; norm_num]
    field_simp
  have hx : ((5 * j : ℕ) : ℤ) * (3602879701896397 / 4503599627370496 : ℚ) =
      4 * j + j / 2 ^ 52 := by
    push_cast
    ring
  unfold Js.mul
  rw [lit_08, hx]
  rw [toBinary64_eq _ e (4 * j * Q) (by positivity) ?_ ?_ ?_]
  · rw [hz3]
    push_cast
    field_simp
  · rw [hz1]
    have : (0 : ℚ) ≤ j / 2 ^ 52 := by positivity
    linarith
  · rw [hz2]
    have : (j : ℚ) / 2 ^ 52 < 1 := by
      rw [div_lt_one (by positivity)]
      linarith
    linarith
  · rw [hz3]
    push_cast
    have : ((4 : ℚ) * j + j / 2 ^ 52) / (1 / Q) - 4 * j * Q = j / P := by
      rw [← hPQq]
      field_simp
      ring
    rw [this, abs_of_pos (by positivity), div_lt_iff₀ hPpos]
    linarith

theorem prime_five_int : Prime (5 : ℤ) := by
  rw [Int.prime_iff_natAbs_prime]
  norm_num

theorem dyadic_ne_fifths (r z m : ℤ) (hm : ¬ (5 : ℤ) ∣ m) :
    (r : ℚ) * (2 : ℚ) ^ z ≠ 4 / 5 * m := by
  intro h
  apply hm
  rcases le_or_lt 0 z with hz | hz
  · obtain ⟨n, rfl⟩ := Int.eq_ofNat_of_zero_le hz
    rw [zpow_natCast] at h
    have h' : (5 : ℤ) * (r * 2 ^ n) = 4 * m := by
      have : ((5 : ℤ) * (r * 2 ^ n) : ℚ) = ((4 * m : ℤ) : ℚ) := by
        push_cast
        linarith
      exact_mod_cast this
    omega
  · obtain ⟨n, hn⟩ := Int.exists_eq_neg_ofNat hz.le
    subst hn
    rw [zpow_neg, zpow_natCast] at h
    have hpos : (0 : ℚ) < 2 ^ n := by positivity
    have h' : (5 : ℤ) * r = 4 * m * 2 ^ n := by
      have : ((5 * r : ℤ) : ℚ) = ((4 * m * 2 ^ n : ℤ) : ℚ) := by
        push_cast
        field_simp at h
        linarith
      exact_mod_cast this
    have hdvd : (5 : ℤ) ∣ 4 * m * 2 ^ n := ⟨r, h'.symm⟩
    rcases prime_five_int.dvd_or_dvd hdvd with h4m | h2n
    · omega
    · have := prime_five_int.dvd_of_dvd_pow h2n
      omega

theorem toBinary64_ne_fifths (x : ℚ) (m : ℤ) (hm : ¬ (5 : ℤ) ∣ m) :
    Js.toBinary64 x ≠ 4 / 5 * m := by
  unfold Js.toBinary64
  by_cases hx : x = 0
  · rw [if_pos hx]
    intro h
    apply hm
    have : (m : ℚ) = 0 := by linarith
    have : m = 0 := by exact_mod_cast this
    simp [this]
  · rw [if_neg hx]
    exact dyadic_ne_fifths _ _ m hm

/-! ## Monthly total (C1) -/

/-- C1. For every panel state the monthly total computed by the panel, and the one computed by
`PriceSummary` from the props the panel passes to it, is
`qWhats*150 + qSocial*60 + qUsers*50 + (97 if broadcast else 0)`; for the initial configuration
(10, 15, 50, broadcast on) both are 4997. -/
theorem monthly_total (p : PlanoPersonalizado.State) :
    PlanoPersonalizado.monthly p =
        p.qWhats * 150 + p.qSocial * 60 + p.qUsers * 50 + (if p.broadcast then 97 else 0) ∧
    PriceSummary.monthly p.qWhats p.qSocial p.qUsers p.broadcast =
        p.qWhats * 150 + p.qSocial * 60 + p.qUsers * 50 + (if p.broadcast then 97 else 0) ∧
    PlanoPersonalizado.monthly PlanoPersonalizado.init = 4997 ∧
    PriceSummary.monthly PlanoPersonalizado.init.qWhats PlanoPersonalizado.init.qSocial
        PlanoPersonalizado.init.qUsers PlanoPersonalizado.init.broadcast = 4997 :=
  ⟨rfl, rfl, by decide, by decide⟩

/-! ## Annual per-month total (C2) -/

theorem monthly_within_bounds (p : PlanoPersonalizado.State) (hp : WithinBounds p) :
    0 ≤ PlanoPersonalizado.monthly p ∧ PlanoPersonalizado.monthly p ≤ 23097 := by
  have hw := hp Control.whats
  have hs := hp Control.social
  have hu := hp Control.users
  simp only [PlanoPersonalizado.props, PlanoPersonalizado.value] at hw hs hu
  simp only [PlanoPersonalizado.monthly, PRICES]
  split <;> omega

theorem annual_exact_of_broadcast_off (p : PlanoPersonalizado.State) (hp : WithinBounds p)
    (hb : p.broadcast = false) :
    PlanoPersonalizado.annualMonthly p = 4 / 5 * (PlanoPersonalizado.monthly p : ℚ) := by
  have hm := monthly_within_bounds p hp
  have h5 : ∃ j : ℕ, PlanoPersonalizado.monthly p = ((5 * j : ℕ) : ℤ) ∧ 4 * j < 2 ^ 53 := by
    simp only [PlanoPersonalizado.monthly, PRICES, hb, Bool.false_eq_true, if_false] at hm ⊢
    refine ⟨(30 * p.qWhats + 12 * p.qSocial + 10 * p.qUsers).toNat, ?_, ?_⟩
    · push_cast
      rw [Int.toNat_of_nonneg (by omega)]
      ring
    · have : ((30 * p.qWhats + 12 * p.qSocial + 10 * p.qUsers).toNat : ℤ) ≤ 23097 := by
        rw [Int.toNat_of_nonneg (by omega)]
        omega
      omega
  obtain ⟨j, hj, hlt⟩ := h5
  unfold PlanoPersonalizado.annualMonthly
  rw [hj]
  rcases Nat.eq_zero_or_pos j with h0 | hpos
  · subst h0
    simp [Js.mul, Js.toBinary64]
  · rw [mul_08_exact j hpos hlt]
    push_cast
    ring

theorem annual_inexact_of_broadcast_on (p : PlanoPersonalizado.State)
    (hb : p.broadcast = true) :
    PlanoPersonalizado.annualMonthly p ≠ 4 / 5 * (PlanoPersonalizado.monthly p : ℚ) := by
  apply toBinary64_ne_fifths
  simp only [PlanoPersonalizado.monthly, PRICES, hb, if_true]
  omega

/-- C2, as stated, fails: for the default configuration (monthly total 4997) the annual per-month
total is the double 2197703841598669 / 2^39 = 3997.6000000000004; it is neither four fifths of
4997 (the real number 3997.6) nor the Number that the literal `3997.6` denotes. -/
theorem annual_default_rounded :
    PriceSummary.yearlyMonthly 10 15 50 true = 2197703841598669 / 549755813888 ∧
    PriceSummary.yearlyMonthly 10 15 50 true ≠
      4 / 5 * (PriceSummary.monthly 10 15 50 true : ℚ) ∧
    PriceSummary.yearlyMonthly 10 15 50 true ≠ Js.lit 3997.6 := by
  have h1 : PriceSummary.yearlyMonthly 10 15 50 true = 2197703841598669 / 549755813888 := by
    rw [show PriceSummary.yearlyMonthly 10 15 50 true = Js.mul 4997 (Js.lit 0.8) from rfl]
    exact mul_4997
  have h2 : Js.lit 3997.6 = 8790815366394675 / 2199023255552 := by
    unfold Js.lit
    rw [toBinary64_eq 3997.6 11 8790815366394675 (by norm_num) (by norm_num) (by norm_num)
      (by rw [abs_lt]; norm_num)]
    norm_num
  refine ⟨h1, ?_, ?_⟩
  · rw [h1, show PriceSummary.monthly 10 15 50 true = 4997 from by decide]
    norm_num
  · rw [h1, h2]
    norm_num

/-- C2, amended. For every configuration the annual per-month total (`yearlyMonthly` in
`PriceSummary`, `annualMonthly` in the panel and in the modal, all the same Number) is the binary64
product of the monthly total and the Number 0.8, which is within `|monthly| / 2^52` of four fifths
of the monthly total.  For quantities within the bounds of their controls it is exactly four
fifths of the monthly total when the broadcast module is off, and it is never exactly four fifths
when the broadcast module is on; for the default configuration it is
2197703841598669 / 2^39 = 3997.6000000000004. -/
theorem annual_total (p : PlanoPersonalizado.State) :
    PriceSummary.yearlyMonthly p.qWhats p.qSocial p.qUsers p.broadcast =
      PlanoPersonalizado.annualMonthly p ∧
    CheckoutModal.annualMonthly (PlanoPersonalizado.payload p) =
      PlanoPersonalizado.annualMonthly p ∧
    PlanoPersonalizado.annualMonthly p =
      Js.toBinary64 ((PlanoPersonalizado.monthly p : ℚ) *
        (3602879701896397 / 4503599627370496)) ∧
    |PlanoPersonalizado.annualMonthly p - 4 / 5 * (PlanoPersonalizado.monthly p : ℚ)| ≤
      |(PlanoPersonalizado.monthly p : ℚ)| / 2 ^ 52 ∧
    (WithinBounds p → p.broadcast = false →
      PlanoPersonalizado.annualMonthly p = 4 / 5 * (PlanoPersonalizado.monthly p : ℚ)) ∧
    (p.broadcast = true →
      PlanoPersonalizado.annualMonthly p ≠ 4 / 5 * (PlanoPersonalizado.monthly p : ℚ)) ∧
    PlanoPersonalizado.annualMonthly PlanoPersonalizado.init =
      2197703841598669 / 549755813888 := by
  refine ⟨rfl, rfl, ?_, mul_08_err _, annual_exact_of_broadcast_off p,
    annual_inexact_of_broadcast_on p, ?_⟩
  · rw [PlanoPersonalizado.annualMonthly, Js.mul, lit_08]
  · rw [show PlanoPersonalizado.annualMonthly PlanoPersonalizado.init =
      Js.mul 4997 (Js.lit 0.8) from rfl]
    exact mul_4997

/-- The amended C2 at a concrete configuration within bounds with the broadcast module off:
10 WhatsApp accounts, 15 social accounts, 50 seats cost 4900 a month and exactly 3920 a month
under annual billing. -/
theorem annual_total_witness :
    WithinBounds { PlanoPersonalizado.init with broadcast := false } ∧
    PlanoPersonalizado.annualMonthly { PlanoPersonalizado.init with broadcast := false } =
      4 / 5 * ((4900 : ℤ) : ℚ) :=
  ⟨fun c => by cases c <;> decide,
    (annual_total { PlanoPersonalizado.init with broadcast := false }).2.2.2.2.1
      (fun c => by cases c <;> decide) rfl⟩

/-! ## Step-1 validation (C4) -/

/-- C4. Step-1 validation: the error mapping stored by `validate` has the key `nome` iff the name
is empty, `tel` iff the phone is empty, `cpf` iff the tax id is empty, `email` iff the e-mail is
empty or not of the shape `local@domain.tld`, and no other key (each key at most once).  The form
with three empty fields and the e-mail `bad` yields exactly the four errors nome, tel, email, cpf;
the form Ana / 11999999999 / a@b.com / 123 yields the empty mapping. -/
theorem validate_step1_errors (s : CheckoutModal.State) (h1 : s.step = 1) :
    (Field.nome ∈ (CheckoutModal.validate s).2.errors.keys ↔ s.form1.nome = "") ∧
    (Field.tel ∈ (CheckoutModal.validate s).2.errors.keys ↔ s.form1.tel = "") ∧
    (Field.cpf ∈ (CheckoutModal.validate s).2.errors.keys ↔ s.form1.cpf = "") ∧
    (Field.email ∈ (CheckoutModal.validate s).2.errors.keys ↔
      (s.form1.email = "" ∨ ¬ EmailShape s.form1.email)) ∧
    (∀ k ∈ (CheckoutModal.validate s).2.errors.keys,
      k = Field.nome ∨ k = Field.tel ∨ k = Field.email ∨ k = Field.cpf) ∧
    (CheckoutModal.validate s).2.errors.keys.Nodup ∧
    (CheckoutModal.validate
        { CheckoutModal.init with
          form1 := { nome := "", tel := "", email := "bad", cpf := "" } }).2.errors =
      [(Field.nome, "Obrigatório"), (Field.tel, "Obrigatório"), (Field.email, "E-mail inválido"),
        (Field.cpf, "Obrigatório")] ∧
    (CheckoutModal.validate
        { CheckoutModal.init with
          form1 := { nome := "Ana", tel := "11999999999", email := "a@b.com",
                     cpf := "123" } }).2.errors = [] := by
  have e3 : (Js.falsy s.form1.email || !(CheckoutModal.emailRegex.test s.form1.email)) = true ↔
      (s.form1.email = "" ∨ ¬ EmailShape s.form1.email) := by
    rw [← emailRegex_test_iff, ← falsy_iff]
    simp
  refine ⟨?_, ?_, ?_, ?_, ?_, ?_, by decide, by decide⟩ <;>
    simp only [CheckoutModal.validate, CheckoutModal.validateErrs, h1, if_true] <;>
    (try rw [← e3]) <;> (try simp only [← falsy_iff]) <;>
    generalize Js.falsy s.form1.nome = b1 <;>
    generalize Js.falsy s.form1.tel = b2 <;>
    generalize (Js.falsy s.form1.email || !(CheckoutModal.emailRegex.test s.form1.email)) = b3 <;>
    generalize Js.falsy s.form1.cpf = b4 <;>
    revert b1 b2 b3 b4 <;> decide

/-- The hypothesis of `validate_step1_errors` holds in the initial state of the modal, where all
four keys are reported. -/
theorem validate_step1_errors_witness :
    CheckoutModal.init.step = 1 ∧
      (Field.nome ∈ (CheckoutModal.validate CheckoutModal.init).2.errors.keys ↔
        CheckoutModal.init.form1.nome = "") :=
  ⟨rfl, (validate_step1_errors CheckoutModal.init rfl).1⟩

/-! ## Bounds of the quantity controls (C3) -/

theorem RangeControl.round_step (d s : Int) (hd : 0 ≤ d) (hs : 0 < s) :
    0 ≤ (2 * d + s) / (2 * s) * s ∧ 2 * ((2 * d + s) / (2 * s) * s) ≤ 2 * d + s ∧
      2 * d - s < 2 * ((2 * d + s) / (2 * s) * s) ∧
      ((2 * d + s) / (2 * s) * s = 0 ∨ s ≤ (2 * d + s) / (2 * s) * s) := by
  have h2s : 0 < 2 * s := by omega
  have hk : 0 ≤ (2 * d + s) / (2 * s) := Int.ediv_nonneg (by omega) h2s.le
  have h1 := Int.ediv_mul_le (2 * d + s) (ne_of_gt h2s)
  have h2 := Int.lt_ediv_add_one_mul_self (2 * d + s) h2s
  refine ⟨mul_nonneg hk hs.le, by nlinarith, by nlinarith, ?_⟩
  rcases lt_or_ge 0 ((2 * d + s) / (2 * s)) with hpos | hle
  · right
    nlinarith
  · left
    have : (2 * d + s) / (2 * s) = 0 := by omega
    rw [this, zero_mul]

/-- A range input whose `min` does not exceed its `max` holds a value within the two, whatever
number is asked for and whatever the step. -/
theorem RangeControl.inputValue_bounds (p : RangeControl.Props) (n : Int) (h : p.min ≤ p.max) :
    p.min ≤ RangeControl.inputValue p n ∧ RangeControl.inputValue p n ≤ p.max := by
  unfold RangeControl.inputValue
  simp only [h, true_and]
  generalize hs : (if 0 < p.step then p.step else 1) = s
  have hspos : 0 < s := by
    rw [← hs]
    split <;> omega
  generalize hv : (if n < p.min then p.min else if p.max < n then p.max else n) = v
  have hvb : p.min ≤ v ∧ v ≤ p.max := by
    rw [← hv]
    split_ifs <;> omega
  clear hs hv
  obtain ⟨r0, r1, r2, r3⟩ := RangeControl.round_step (v - p.min) s (by omega) hspos
  split_ifs with hw <;> constructor <;> omega

/-- With step 1 a range input takes every number of its range as it is. -/
theorem RangeControl.inputValue_step_one (lo hi n : Int) (h1 : lo ≤ n) (h2 : n ≤ hi) :
    RangeControl.inputValue { min := lo, max := hi, step := 1 } n = n := by
  have h : lo ≤ hi := by omega
  have hn1 : ¬ n < lo := by omega
  have hn2 : ¬ hi < n := by omega
  have hr : (2 * (n - lo) + 1) / 2 = n - lo := by omega
  simp only [RangeControl.inputValue, h, true_and, zero_lt_one, if_true, mul_one, hn1, hn2,
    if_false, hr]
  rw [if_neg (by omega)]
  omega

theorem props_min_le_max (c : Control) :
    (PlanoPersonalizado.props c).min ≤ (PlanoPersonalizado.props c).max := by
  cases c <;> decide

theorem withinBounds_init : WithinBounds PlanoPersonalizado.init := by
  intro c
  cases c <;> decide

theorem withinBounds_step (a : App) (act : Action) (h : WithinBounds a.panel) :
    WithinBounds (App.step a act).panel := by
  have hw := h Control.whats
  have hs := h Control.social
  have hu := h Control.users
  simp only [PlanoPersonalizado.props, PlanoPersonalizado.value] at hw hs hu
  cases act with
  | decrement c =>
    intro d
    cases c <;> cases d <;>
      simp only [App.step, PlanoPersonalizado.setValue, PlanoPersonalizado.value,
        PlanoPersonalizado.props, RangeControl.decrement] <;> omega
  | increment c =>
    intro d
    cases c <;> cases d <;>
      simp only [App.step, PlanoPersonalizado.setValue, PlanoPersonalizado.value,
        PlanoPersonalizado.props, RangeControl.increment] <;> omega
  | slide c n =>
    have hb := RangeControl.inputValue_bounds (PlanoPersonalizado.props c) n (props_min_le_max c)
    intro d
    cases c <;> cases d <;>
      simp only [PlanoPersonalizado.props] at hb <;>
      simp only [App.step, PlanoPersonalizado.setValue, PlanoPersonalizado.value,
        PlanoPersonalizado.props, RangeControl.onChange] <;> omega
  | finish =>
    intro d
    simp only [App.step, CheckoutModal.finish]
    split
    · cases d <;> simp only [List.foldl_nil, PlanoPersonalizado.value,
        PlanoPersonalizado.props] <;> omega
    · cases d <;> simp only [List.foldl_cons, List.foldl_nil, App.perform,
        PlanoPersonalizado.value, PlanoPersonalizado.props] <;> omega
  | _ =>
    intro d
    cases d <;> simp only [App.step, App.perform, PlanoPersonalizado.value,
      PlanoPersonalizado.props] <;> omega

/-- C3. Starting from the defaults (whatsapp 10 in [0,50], social 15 in [0,50], seats 50 in
[1,250]), after every finite sequence of events of the page (presses of "Diminuir" and "Aumentar"
and slider gestures asking for an arbitrary number among them) each quantity is within the `min`
and `max` of its control; and from any state of the page, a slider gesture asking for an arbitrary
number leaves the quantity of that control within its `min` and `max`. -/
theorem quantities_within_bounds (acts : List Action) :
    (0 ≤ (App.run App.init acts).panel.qWhats ∧ (App.run App.init acts).panel.qWhats ≤ 50 ∧
      0 ≤ (App.run App.init acts).panel.qSocial ∧ (App.run App.init acts).panel.qSocial ≤ 50 ∧
      1 ≤ (App.run App.init acts).panel.qUsers ∧ (App.run App.init acts).panel.qUsers ≤ 250) ∧
    (∀ (a : App) (c : Control) (n : Int),
      (PlanoPersonalizado.props c).min ≤
          PlanoPersonalizado.value (App.step a (Action.slide c n)).panel c ∧
        PlanoPersonalizado.value (App.step a (Action.slide c n)).panel c ≤
          (PlanoPersonalizado.props c).max) := by
  have h : WithinBounds (App.run App.init acts).panel :=
    App.run_invariant (fun a => WithinBounds a.panel) acts App.init withinBounds_init
      (fun b act _ hb => withinBounds_step b act hb)
  refine ⟨⟨(h Control.whats).1, (h Control.whats).2, (h Control.social).1, (h Control.social).2,
    (h Control.users).1, (h Control.users).2⟩, ?_⟩
  intro a c n
  have hb := RangeControl.inputValue_bounds (PlanoPersonalizado.props c) n (props_min_le_max c)
  cases c <;> exact hb

/-- C3 at concrete runs: from 49 WhatsApp accounts three presses of "Aumentar" stop at 50; slider
gestures asking for 1000 social accounts and for -5 seats store 50 and 1, and one asking for 120
seats stores 120. -/
theorem quantities_within_bounds_witness :
    (App.run App.init [Action.slide Control.whats 49, Action.increment Control.whats,
      Action.increment Control.whats, Action.increment Control.whats]).panel.qWhats = 50 ∧
    (App.run App.init [Action.slide Control.social 1000]).panel.qSocial = 50 ∧
    (App.run App.init [Action.slide Control.users (-5)]).panel.qUsers = 1 ∧
    (App.run App.init [Action.slide Control.users 120]).panel.qUsers = 120 ∧
    (App.run App.init [Action.slide Control.social 1000, Action.slide Control.users (-5),
      Action.decrement Control.users]).panel.qUsers ≤ 250 :=
  ⟨by decide, by decide, by decide, by decide,
    (quantities_within_bounds [Action.slide Control.social 1000, Action.slide Control.users (-5),
      Action.decrement Control.users]).1.2.2.2.2.2⟩

/-! ## The wizard: `next`, `prev`, step-2 and step-3 validation (C5, C9, C10) -/

theorem validate_fst (s : CheckoutModal.State) :
    (CheckoutModal.validate s).1 = true ↔ CheckoutModal.validateErrs s = [] := by
  simp [CheckoutModal.validate, Errors.keys]

theorem validate_snd (s : CheckoutModal.State) :
    (CheckoutModal.validate s).2 = { s with errors := CheckoutModal.validateErrs s } := rfl

theorem validateErrs_step1_nil (s : CheckoutModal.State) (h1 : s.step = 1) :
    CheckoutModal.validateErrs s = [] ↔
      s.form1.nome ≠ "" ∧ s.form1.tel ≠ "" ∧ s.form1.cpf ≠ "" ∧ s.form1.email ≠ "" ∧
        EmailShape s.form1.email := by
  have e3 : (Js.falsy s.form1.email || !(CheckoutModal.emailRegex.test s.form1.email)) = false ↔
      (s.form1.email ≠ "" ∧ EmailShape s.form1.email) := by
    rw [← emailRegex_test_iff, ne_eq, ← falsy_iff]
    simp
  rw [← e3]
  simp only [CheckoutModal.validateErrs, h1, if_true, ne_eq, ← falsy_iff]
  generalize Js.falsy s.form1.nome = b1
  generalize Js.falsy s.form1.tel = b2
  generalize (Js.falsy s.form1.email || !(CheckoutModal.emailRegex.test s.form1.email)) = b3
  generalize Js.falsy s.form1.cpf = b4
  revert b1 b2 b3 b4
  decide

theorem next_of_errors (s : CheckoutModal.State) (h : CheckoutModal.validateErrs s ≠ []) :
    CheckoutModal.next s = { s with errors := CheckoutModal.validateErrs s } := by
  have hv : (CheckoutModal.validate s).1 = false := by
    rw [← Bool.not_eq_true, validate_fst]
    exact h
  simp only [CheckoutModal.next, hv, validate_snd]
  rfl

theorem next_of_no_errors (s : CheckoutModal.State) (h : CheckoutModal.validateErrs s = []) :
    CheckoutModal.next s = { s with step := Min.min 3 (s.step + 1), errors := [] } := by
  have hv : (CheckoutModal.validate s).1 = true := (validate_fst s).mpr h
  simp only [CheckoutModal.next, hv, validate_snd, h]
  rfl

theorem next_step_cases (s : CheckoutModal.State) :
    (CheckoutModal.next s).step = s.step ∨
      (CheckoutModal.next s).step = Min.min 3 (s.step + 1) := by
  by_cases h : CheckoutModal.validateErrs s = []
  · exact Or.inr (by rw [next_of_no_errors s h])
  · exact Or.inl (by rw [next_of_errors s h])

theorem finish_fst (payload : Payload) (s : CheckoutModal.State) :
    (CheckoutModal.finish payload s).1 = { s with errors := CheckoutModal.validateErrs s } := by
  simp only [CheckoutModal.finish, validate_snd]
  split <;> rfl

theorem foldl_perform_modal (effects : List Effect) (a : App) :
    (effects.foldl App.perform a).modal = a.modal := by
  induction effects generalizing a with
  | nil => rfl
  | cons e effects ih =>
    rw [List.foldl_cons, ih]
    cases e <;> rfl

theorem step_finish_modal (a : App) :
    (App.step a Action.finish).modal =
      { a.modal with errors := CheckoutModal.validateErrs a.modal } := by
  simp only [App.step]
  rw [foldl_perform_modal]
  exact finish_fst _ _

theorem validateErrs_step2 (s : CheckoutModal.State) (h2 : s.step = 2) :
    CheckoutModal.validateErrs s = [] := by
  simp only [CheckoutModal.validateErrs, h2]
  rfl

/-- C5. For every wizard state with step 1, 2 or 3: when validation of the current step reports
an error, `next` leaves the step (and everything but the error mapping) unchanged and stores
exactly the reported errors; otherwise the step becomes `min 3 (step + 1)` and the error mapping
becomes empty.  The step never decreases and grows by at most one; from step 1 with valid personal
data the step becomes 2 with no errors, and with invalid data it stays 1 with errors stored. -/
theorem next_spec (s : CheckoutModal.State) (hs : StepInRange s) :
    (CheckoutModal.validateErrs s ≠ [] →
      CheckoutModal.next s = { s with errors := CheckoutModal.validateErrs s }) ∧
    (CheckoutModal.validateErrs s = [] →
      CheckoutModal.next s = { s with step := Min.min 3 (s.step + 1), errors := [] }) ∧
    (s.step ≤ (CheckoutModal.next s).step ∧ (CheckoutModal.next s).step ≤ s.step + 1) ∧
    (s.step = 1 → s.form1.nome ≠ "" → s.form1.tel ≠ "" → s.form1.cpf ≠ "" →
      s.form1.email ≠ "" → EmailShape s.form1.email →
      (CheckoutModal.next s).step = 2 ∧ (CheckoutModal.next s).errors = []) ∧
    (s.step = 1 →
      (s.form1.nome = "" ∨ s.form1.tel = "" ∨ s.form1.cpf = "" ∨ s.form1.email = "" ∨
        ¬ EmailShape s.form1.email) →
      (CheckoutModal.next s).step = 1 ∧ (CheckoutModal.next s).errors ≠ []) := by
  have hne := next_of_errors s
  have heq := next_of_no_errors s
  refine ⟨hne, heq, ?_, ?_, ?_⟩
  · by_cases h : CheckoutModal.validateErrs s = []
    · rw [heq h]
      simp only
      rcases hs with h1 | h1 | h1 <;> rw [h1] <;> decide
    · rw [hne h]
      simp
  · intro h1 hn ht hc he hshape
    have h := (validateErrs_step1_nil s h1).mpr ⟨hn, ht, hc, he, hshape⟩
    rw [heq h, h1]
    exact ⟨show Min.min (3 : Int) (1 + 1) = 2 by decide, rfl⟩
  · intro h1 hbad
    have h : CheckoutModal.validateErrs s ≠ [] := by
      intro hnil
      have hv := (validateErrs_step1_nil s h1).mp hnil
      rcases hbad with hb | hb | hb | hb | hb
      · exact hv.1 hb
      · exact hv.2.1 hb
      · exact hv.2.2.1 hb
      · exact hv.2.2.2.1 hb
      · exact hb hv.2.2.2.2
    rw [hne h]
    exact ⟨h1, h⟩

/-- C5 at a concrete state: step 1 with the form Ana / 11999999999 / a@b.com / 123 advances to
step 2. -/
theorem next_spec_witness :
    StepInRange { CheckoutModal.init with
      form1 := { nome := "Ana", tel := "11999999999", email := "a@b.com", cpf := "123" } } ∧
    CheckoutModal.next { CheckoutModal.init with
        form1 := { nome := "Ana", tel := "11999999999", email := "a@b.com", cpf := "123" } } =
      { CheckoutModal.init with
        form1 := { nome := "Ana", tel := "11999999999", email := "a@b.com", cpf := "123" }
        step := Min.min 3 (1 + 1)
        errors := [] } :=
  ⟨Or.inl rfl, (next_spec _ (Or.inl rfl)).2.1 (by decide)⟩

/-- C9. Step-3 validation stores a key for exactly those of cep, numero, bairro, cidade, estado
that are empty, never one for complemento and no other key (each key at most once); step-2
validation stores the empty mapping for every company form, so `next` from step 2 always moves to
step 3 with no errors. -/
theorem validate_step3_step2 (s : CheckoutModal.State) :
    (s.step = 3 →
      (Field.cep ∈ (CheckoutModal.validate s).2.errors.keys ↔ s.form3.cep = "") ∧
      (Field.numero ∈ (CheckoutModal.validate s).2.errors.keys ↔ s.form3.numero = "") ∧
      (Field.bairro ∈ (CheckoutModal.validate s).2.errors.keys ↔ s.form3.bairro = "") ∧
      (Field.cidade ∈ (CheckoutModal.validate s).2.errors.keys ↔ s.form3.cidade = "") ∧
      (Field.estado ∈ (CheckoutModal.validate s).2.errors.keys ↔ s.form3.estado = "") ∧
      Field.complemento ∉ (CheckoutModal.validate s).2.errors.keys ∧
      (∀ k ∈ (CheckoutModal.validate s).2.errors.keys,
        k = Field.cep ∨ k = Field.numero ∨ k = Field.bairro ∨ k = Field.cidade ∨
          k = Field.estado) ∧
      (CheckoutModal.validate s).2.errors.keys.Nodup) ∧
    (s.step = 2 →
      (CheckoutModal.validate s).2.errors = [] ∧ (CheckoutModal.validate s).1 = true ∧
      CheckoutModal.next s = { s with step := 3, errors := [] }) := by
  constructor
  · intro h3
    have h31 : ¬ ((3 : Int) = 1) := by decide
    refine ⟨?_, ?_, ?_, ?_, ?_, ?_, ?_, ?_⟩ <;>
      simp only [CheckoutModal.validate, CheckoutModal.validateErrs, h3, h31, if_true, if_false,
        List.foldl_cons, List.foldl_nil] <;>
      dsimp only [Form3.get] <;>
      (try simp only [← falsy_iff]) <;>
      generalize Js.falsy s.form3.cep = b1 <;>
      generalize Js.falsy s.form3.numero = b2 <;>
      generalize Js.falsy s.form3.bairro = b3 <;>
      generalize Js.falsy s.form3.cidade = b4 <;>
      generalize Js.falsy s.form3.estado = b5 <;>
      revert b1 b2 b3 b4 b5 <;> decide
  · intro h2
    have h := validateErrs_step2 s h2
    refine ⟨by rw [validate_snd, h], (validate_fst s).mpr h, ?_⟩
    rw [next_of_no_errors s h, h2]
    rfl

/-- C9 at concrete states: at step 3 with every address field empty all five keys are stored, and
a state at step 2 moves to step 3. -/
theorem validate_step3_step2_witness :
    (Field.cep ∈ (CheckoutModal.validate { CheckoutModal.init with step := 3 }).2.errors.keys ↔
      ({ CheckoutModal.init with step := 3 } : CheckoutModal.State).form3.cep = "") ∧
    CheckoutModal.next { CheckoutModal.init with step := 2 } =
      { CheckoutModal.init with step := 3, errors := [] } :=
  ⟨((validate_step3_step2 { CheckoutModal.init with step := 3 }).1 rfl).1,
    ((validate_step3_step2 { CheckoutModal.init with step := 2 }).2 rfl).2.2⟩

/-! ## `prev` and the range of the step (C10) -/

theorem stepInRange_step (a : App) (act : Action) (h : StepInRange a.modal) :
    StepInRange (App.step a act).modal ∧
      |(App.step a act).modal.step - a.modal.step| ≤ 1 := by
  unfold StepInRange at h ⊢
  cases act with
  | next =>
    have hc := next_step_cases a.modal
    simp only [App.step]
    rcases h with h | h | h <;> rcases hc with hc | hc <;> rw [hc, h] <;> decide
  | prev =>
    simp only [App.step, CheckoutModal.prev]
    rcases h with h | h | h <;> rw [h] <;> decide
  | finish =>
    rw [step_finish_modal]
    simp only [sub_self, abs_zero, zero_le_one, and_true]
    exact h
  | edit1 k v =>
    cases k <;> simp only [App.step, CheckoutModal.setForm1, sub_self, abs_zero, zero_le_one,
      and_true] <;> exact h
  | edit2 k v =>
    cases k <;> simp only [App.step, CheckoutModal.setForm2, sub_self, abs_zero, zero_le_one,
      and_true] <;> exact h
  | edit3 k v =>
    cases k <;> simp only [App.step, CheckoutModal.setForm3, sub_self, abs_zero, zero_le_one,
      and_true] <;> exact h
  | _ =>
    simp only [App.step, App.perform, CheckoutModal.setBilling, sub_self, abs_zero, zero_le_one,
      and_true]
    exact h

/-- C10. `prev` sets the step to `max 1 (step - 1)` and changes nothing else; starting at step 1,
after every finite sequence of events (next, back, submit, billing toggles, field edits, and the
panel's events) the step of the wizard is 1, 2 or 3, and from such a step every single event
changes the step by at most one. -/
theorem prev_spec_step_range :
    (∀ s : CheckoutModal.State,
      CheckoutModal.prev s = { s with step := Max.max 1 (s.step - 1) }) ∧
    (∀ acts : List Action, StepInRange (App.run App.init acts).modal) ∧
    (∀ (a : App) (act : Action), StepInRange a.modal →
      StepInRange (App.step a act).modal ∧ |(App.step a act).modal.step - a.modal.step| ≤ 1) :=
  ⟨fun _ => rfl,
    fun acts => App.run_invariant (fun a => StepInRange a.modal) acts App.init (Or.inl rfl)
      (fun b act _ hb => (stepInRange_step b act hb).1),
    stepInRange_step⟩

/-! ## `finish` (C6) -/

theorem validateErrs_step3_nil (s : CheckoutModal.State) (h3 : s.step = 3) :
    CheckoutModal.validateErrs s = [] ↔
      s.form3.cep ≠ "" ∧ s.form3.numero ≠ "" ∧ s.form3.bairro ≠ "" ∧ s.form3.cidade ≠ "" ∧
        s.form3.estado ≠ "" := by
  have h31 : ¬ ((3 : Int) = 1) := by decide
  simp only [CheckoutModal.validateErrs, h3, h31, if_true, if_false, List.foldl_cons,
    List.foldl_nil]
  dsimp only [Form3.get]
  simp only [ne_eq, ← falsy_iff]
  generalize Js.falsy s.form3.cep = b1
  generalize Js.falsy s.form3.numero = b2
  generalize Js.falsy s.form3.bairro = b3
  generalize Js.falsy s.form3.cidade = b4
  generalize Js.falsy s.form3.estado = b5
  revert b1 b2 b3 b4 b5
  decide

theorem finish_of_errors (payload : Payload) (s : CheckoutModal.State)
    (h : CheckoutModal.validateErrs s ≠ []) :
    CheckoutModal.finish payload s = ({ s with errors := CheckoutModal.validateErrs s }, []) := by
  have hv : (CheckoutModal.validate s).1 = false := by
    rw [← Bool.not_eq_true, validate_fst]
    exact h
  simp only [CheckoutModal.finish, hv, validate_snd]
  rfl

theorem finish_of_no_errors (payload : Payload) (s : CheckoutModal.State)
    (h : CheckoutModal.validateErrs s = []) :
    CheckoutModal.finish payload s =
      ({ s with errors := [] },
        [Effect.consoleLog "Checkout submetido:"
            { plano :=
                { billing := s.billing
                  qWhats := payload.qWhats
                  qSocial := payload.qSocial
                  qUsers := payload.qUsers
                  broadcast := payload.broadcast
                  mensal := payload.monthly
                  mensalAnual := Js.mul payload.monthly (Js.lit 0.8) }
              dadosPessoais := s.form1
              empresa := s.form2
              endereco := s.form3 },
          Effect.alert "Plano enviado! Veja os dados no console do navegador.",
          Effect.onClose]) := by
  have hv : (CheckoutModal.validate s).1 = true := (validate_fst s).mpr h
  simp only [CheckoutModal.finish, hv, validate_snd, h]
  rfl

/-- C6. Submit at step 3.  When one of the required address fields (cep, numero, bairro, cidade,
estado) is empty, `finish` makes no call at all (nothing is written to the console, the modal is
not closed) and the page changes only in the error mapping, which receives the validation errors,
a non-empty mapping.  When none is empty, `finish` calls `console.log` exactly once, with an order
made of `plano` (the payload's qWhats, qSocial, qUsers and broadcast, the wizard's own billing
mode, `mensal` = the payload's monthly total, `mensalAnual` = that total times 0.8),
`dadosPessoais` = form 1, `empresa` = form 2 and `endereco` = form 3, then `alert`, then `onClose`:
on the page the order is appended to the console once and `openCheckout` becomes false. -/
theorem finish_spec (a : App) (h3 : a.modal.step = 3) :
    ((a.modal.form3.cep = "" ∨ a.modal.form3.numero = "" ∨ a.modal.form3.bairro = "" ∨
        a.modal.form3.cidade = "" ∨ a.modal.form3.estado = "") →
      (CheckoutModal.finish (App.payload a) a.modal).2 = [] ∧
      CheckoutModal.validateErrs a.modal ≠ [] ∧
      App.step a Action.finish =
        { a with modal := { a.modal with errors := CheckoutModal.validateErrs a.modal } }) ∧
    ((a.modal.form3.cep ≠ "" ∧ a.modal.form3.numero ≠ "" ∧ a.modal.form3.bairro ≠ "" ∧
        a.modal.form3.cidade ≠ "" ∧ a.modal.form3.estado ≠ "") →
      (CheckoutModal.finish (App.payload a) a.modal).2 =
        [Effect.consoleLog "Checkout submetido:"
            { plano :=
                { billing := a.modal.billing
                  qWhats := a.panel.qWhats
                  qSocial := a.panel.qSocial
                  qUsers := a.panel.qUsers
                  broadcast := a.panel.broadcast
                  mensal := PlanoPersonalizado.monthly a.panel
                  mensalAnual := Js.mul (PlanoPersonalizado.monthly a.panel) (Js.lit 0.8) }
              dadosPessoais := a.modal.form1
              empresa := a.modal.form2
              endereco := a.modal.form3 },
          Effect.alert "Plano enviado! Veja os dados no console do navegador.",
          Effect.onClose] ∧
      App.step a Action.finish =
        { panel := { a.panel with openCheckout := false }
          modal := { a.modal with errors := [] }
          console := a.console ++
            [{ plano :=
                { billing := a.modal.billing
                  qWhats := a.panel.qWhats
                  qSocial := a.panel.qSocial
                  qUsers := a.panel.qUsers
                  broadcast := a.panel.broadcast
                  mensal := PlanoPersonalizado.monthly a.panel
                  mensalAnual := Js.mul (PlanoPersonalizado.monthly a.panel) (Js.lit 0.8) }
               dadosPessoais := a.modal.form1
               empresa := a.modal.form2
               endereco := a.modal.form3 }]
          alerts := a.alerts ++ ["Plano enviado! Veja os dados no console do navegador."] }) := by
  constructor
  · intro hbad
    have h : CheckoutModal.validateErrs a.modal ≠ [] := by
      intro hnil
      have hv := (validateErrs_step3_nil a.modal h3).mp hnil
      rcases hbad with hb | hb | hb | hb | hb
      · exact hv.1 hb
      · exact hv.2.1 hb
      · exact hv.2.2.1 hb
      · exact hv.2.2.2.1 hb
      · exact hv.2.2.2.2 hb
    refine ⟨by rw [finish_of_errors _ _ h], h, ?_⟩
    simp only [App.step]
    rw [finish_of_errors _ _ h]
    rfl
  · intro hgood
    have h := (validateErrs_step3_nil a.modal h3).mpr hgood
    refine ⟨by rw [finish_of_no_errors _ _ h]; rfl, ?_⟩
    simp only [App.step]
    rw [finish_of_no_errors _ _ h]
    rfl

/-- C6 at a concrete page: at step 3 with the address filled, `finish` closes the modal and
writes one order to the console. -/
theorem finish_spec_witness :
    exampleAtStep3.modal.step = 3 ∧
    (App.step exampleAtStep3 Action.finish).panel.openCheckout = false ∧
    (App.step exampleAtStep3 Action.finish).console.length = 1 :=
  ⟨rfl,
    congrArg (fun b : App => b.panel.openCheckout)
      ((finish_spec exampleAtStep3 rfl).2 (by decide)).2,
    congrArg (fun b : App => b.console.length)
      ((finish_spec exampleAtStep3 rfl).2 (by decide)).2⟩

/-! ## The payload of the modal (C7) -/

theorem payload_step (a : App) (act : Action) (h : act.onPlanControl = false) :
    App.payload (App.step a act) = App.payload a := by
  cases act with
  | decrement c => simp [Action.onPlanControl] at h
  | increment c => simp [Action.onPlanControl] at h
  | slide c v => simp [Action.onPlanControl] at h
  | toggleBroadcast => simp [Action.onPlanControl] at h
  | finish =>
    simp only [App.step, CheckoutModal.finish]
    split <;> rfl
  | _ => rfl

/-- C7, as stated, fails: with the checkout open, a press of "Aumentar" on the WhatsApp control
changes the payload the open modal receives (11 accounts and 5147 instead of 10 and 4997). -/
theorem payload_not_snapshot :
    (App.step App.init Action.contratar).panel.openCheckout = true ∧
    App.payload (App.step (App.step App.init Action.contratar)
        (Action.increment Control.whats)) ≠
      App.payload (App.step App.init Action.contratar) ∧
    (App.payload (App.step (App.step App.init Action.contratar)
        (Action.increment Control.whats))).qWhats = 11 ∧
    (App.payload (App.step (App.step App.init Action.contratar)
        (Action.increment Control.whats))).monthly = 5147 := by
  decide

/-- C7, amended. The payload the modal displays and submits is rebuilt from the panel state by
every render: after any events it is (qWhats, qSocial, qUsers, broadcast, monthly) of the current
panel state.  Across events that come neither from a quantity control nor from the broadcast
toggle (billing mode of the panel or of the modal, navigation, edits, submit, close, reopen) it
stays what it was at the moment of opening. -/
theorem payload_tracks_panel (a : App) (acts : List Action)
    (hacts : ∀ act ∈ acts, act.onPlanControl = false) :
    App.payload (App.run a acts) = App.payload a ∧
    App.payload (App.run a acts) =
      { qWhats := (App.run a acts).panel.qWhats
        qSocial := (App.run a acts).panel.qSocial
        qUsers := (App.run a acts).panel.qUsers
        broadcast := (App.run a acts).panel.broadcast
        monthly := (App.run a acts).panel.qWhats * 150 + (App.run a acts).panel.qSocial * 60 +
          (App.run a acts).panel.qUsers * 50 +
          (if (App.run a acts).panel.broadcast then 97 else 0) } :=
  ⟨App.run_invariant (fun b => App.payload b = App.payload a) acts a rfl
      (fun b act hm hb => (payload_step b act (hacts act hm)).trans hb),
    rfl⟩

/-- The amended C7 at a concrete run: after opening, a change of the panel's billing mode and of
the modal's billing mode leave the payload as it was. -/
theorem payload_tracks_panel_witness :
    (∀ act ∈ [Action.panelBilling Billing.anual, Action.modalBilling Billing.anual],
      act.onPlanControl = false) ∧
    App.payload (App.run (App.step App.init Action.contratar)
        [Action.panelBilling Billing.anual, Action.modalBilling Billing.anual]) =
      App.payload (App.step App.init Action.contratar) :=
  ⟨by decide, (payload_tracks_panel _ _ (by decide)).1⟩

/-! ## Closing and reopening the modal (C8) -/

/-- C8, as stated, fails: after a visit that reached step 2 with annual billing, closing the modal
and opening it again shows step 2, annual billing and the personal data typed before. -/
theorem close_reopen_keeps_state :
    (App.run App.init (exampleVisit ++ [Action.close, Action.contratar])).modal.step = 2 ∧
    (App.run App.init (exampleVisit ++ [Action.close, Action.contratar])).modal.billing =
      Billing.anual ∧
    (App.run App.init (exampleVisit ++ [Action.close, Action.contratar])).modal.form1 =
      exampleForm1 ∧
    (App.run App.init (exampleVisit ++ [Action.close, Action.contratar])).modal ≠
      CheckoutModal.init := by
  decide

/-- C8, amended. Closing is possible in every state of the wizard and has no effect but
`openCheckout := false`: nothing is written to the console, no alert is shown, and the hook state
of the modal (step, billing mode, the three forms, the error mapping) is kept, so that after close
followed by reopen the wizard is in the state it was in before closing.  The initial state (step 1,
billing `mensal`, all three forms empty, error mapping empty) is the state at mount. -/
theorem close_reopen_spec (a : App) :
    App.step a Action.close = { a with panel := { a.panel with openCheckout := false } } ∧
    App.step (App.step a Action.close) Action.contratar =
      { a with panel := { a.panel with openCheckout := true } } ∧
    (App.step (App.step a Action.close) Action.contratar).modal = a.modal ∧
    App.init.modal =
      { step := 1
        billing := Billing.mensal
        form1 := { nome := "", tel := "", email := "", cpf := "" }
        form2 := { cnpj := "", razao := "" }
        form3 := { cep := "", numero := "", complemento := "", bairro := "", cidade := "",
                   estado := "" }
        errors := [] } :=
  ⟨rfl, rfl, rfl, rfl⟩

/-! ## Setup fee (C11) -/

/-- C11. For every panel state (any quantities, any broadcast toggle) the setup fee computed by
`PriceSummary` from the billing mode the panel passes to it is 0 when that mode is `anual` and 297
otherwise. -/
theorem setup_fee (p : PlanoPersonalizado.State) :
    PriceSummary.setup p.billing = (if p.billing = Billing.anual then 0 else 297) ∧
    (p.billing = Billing.anual → PriceSummary.setup p.billing = 0) ∧
    (p.billing ≠ Billing.anual → PriceSummary.setup p.billing = 297) ∧
    PriceSummary.setup PlanoPersonalizado.init.billing = 297 := by
  refine ⟨rfl, fun h => ?_, fun h => ?_, by decide⟩
  · rw [h]
    rfl
  · cases hb : p.billing with
    | mensal => rfl
    | anual => exact absurd hb h

/-! ## Orders carry valid data (C12) -/

theorem rendered_displayed (a : App) (act : Action) (h : a.rendered act = true) :
    a.displayed act = true := by
  cases act <;> simp only [App.rendered, Bool.and_eq_true] at h <;>
    simp only [App.displayed] <;> first | rfl | exact h.2 | exact h.1.2

theorem passesStep1_of_validateErrs (s : CheckoutModal.State) (h1 : s.step = 1)
    (h : CheckoutModal.validateErrs s = []) : CheckoutModal.passesStep1 s.form1 = true := by
  rw [CheckoutModal.passesStep1, validate_fst, ← h]
  simp only [CheckoutModal.validateErrs, h1, if_true]

theorem passesStep3_of_validateErrs (s : CheckoutModal.State) (h3 : s.step = 3)
    (h : CheckoutModal.validateErrs s = []) : CheckoutModal.passesStep3 s.form3 = true := by
  have h31 : ¬ ((3 : Int) = 1) := by decide
  rw [CheckoutModal.passesStep3, validate_fst, ← h]
  simp only [CheckoutModal.validateErrs, h3, h31, if_true, if_false]

theorem carriesValidData_dispatch (a : App) (act : Action) (h : CarriesValidData a) :
    CarriesValidData (App.dispatch a act) := by
  unfold App.dispatch
  by_cases hd : a.displayed act = true
  swap
  · rw [if_neg hd]
    exact h
  rw [if_pos hd]
  obtain ⟨hr, hf, hc⟩ := h
  cases act with
  | next =>
    by_cases he : CheckoutModal.validateErrs a.modal = []
    · refine ⟨(stepInRange_step a Action.next hr).1, ?_, hc⟩
      simp only [App.step]
      rw [next_of_no_errors a.modal he]
      intro _
      rcases hr with h1 | h2 | h3
      · exact passesStep1_of_validateErrs a.modal h1 he
      · exact hf (Or.inl h2)
      · exact hf (Or.inr h3)
    · refine ⟨(stepInRange_step a Action.next hr).1, ?_, hc⟩
      simp only [App.step]
      rw [next_of_errors a.modal he]
      exact hf
  | prev =>
    refine ⟨(stepInRange_step a Action.prev hr).1, ?_, hc⟩
    intro _
    rcases hr with h1 | h2 | h3
    · have : (App.step a Action.prev).modal.step = 1 := by
        simp only [App.step, CheckoutModal.prev, h1]
        decide
      omega
    · exact hf (Or.inl h2)
    · exact hf (Or.inr h3)
  | finish =>
    have h3 : a.modal.step = 3 := by
      simp only [App.displayed, Bool.not_eq_true', decide_eq_false_iff_not, not_lt] at hd
      rcases hr with h1 | h2 | h3 <;> omega
    by_cases he : CheckoutModal.validateErrs a.modal = []
    · simp only [App.step]
      rw [finish_of_no_errors _ _ he]
      refine ⟨hr, hf, ?_⟩
      intro o ho
      simp only [List.foldl_cons, List.foldl_nil, App.perform, List.mem_append,
        List.mem_singleton] at ho
      rcases ho with ho | ho
      · exact hc o ho
      · subst ho
        exact ⟨hf (Or.inr h3), passesStep3_of_validateErrs a.modal h3 he⟩
    · simp only [App.step]
      rw [finish_of_errors _ _ he]
      exact ⟨hr, hf, hc⟩
  | edit1 k v =>
    have h1 : a.modal.step = 1 := by
      simpa [App.displayed] using hd
    have hs : (App.step a (Action.edit1 k v)).modal.step = 1 := by
      cases k <;> exact h1
    refine ⟨Or.inl hs, ?_, hc⟩
    intro h23
    omega
  | edit2 k v => cases k <;> exact ⟨hr, hf, hc⟩
  | edit3 k v => cases k <;> exact ⟨hr, hf, hc⟩
  | decrement c => cases c <;> exact ⟨hr, hf, hc⟩
  | increment c => cases c <;> exact ⟨hr, hf, hc⟩
  | slide c v => cases c <;> exact ⟨hr, hf, hc⟩
  | _ => exact ⟨hr, hf, hc⟩

theorem carriesValidData_visit (a : App) (acts : List Action) (h : CarriesValidData a) :
    CarriesValidData (App.visit a acts) := by
  induction acts generalizing a with
  | nil => exact h
  | cons act acts ih =>
    simp only [App.visit, List.foldl_cons]
    exact ih (App.dispatch a act) (carriesValidData_dispatch a act h)

/-- C12. In every state of the page reached from the mounted page (step 1, empty forms) by events
raised by elements on display (next, back, billing toggles, submit at step 3, closing and
reopening, the panel's events, and edits of the form displayed at the current step), whenever the
step of the wizard is 2 or 3 the personal-data form passes step-1 validation; and every order that
`finish` has written to the console has `dadosPessoais` passing step-1 validation and `endereco`
passing step-3 validation.  Runs of elements that are rendered are runs of this kind, and the
complete checkout `exampleCheckout` does write an order. -/
theorem orders_carry_valid_data (acts : List Action) :
    ((App.visit App.init acts).modal.step = 2 ∨ (App.visit App.init acts).modal.step = 3 →
      CheckoutModal.passesStep1 (App.visit App.init acts).modal.form1 = true) ∧
    (∀ o ∈ (App.visit App.init acts).console,
      CheckoutModal.passesStep1 o.dadosPessoais = true ∧
        CheckoutModal.passesStep3 o.endereco = true) ∧
    (∀ (a : App) (act : Action), a.rendered act = true → App.dispatch a act = App.step a act) ∧
    (App.visit App.init exampleCheckout).console.length = 1 := by
  have h0 : CarriesValidData App.init :=
    ⟨Or.inl rfl, fun h => by revert h; decide, fun o ho => by simp [App.init] at ho⟩
  have h := carriesValidData_visit App.init acts h0
  refine ⟨h.2.1, h.2.2, ?_, by decide⟩
  intro a act hr
  rw [App.dispatch, if_pos (rendered_displayed a act hr)]

/-- C12 at the complete checkout `exampleCheckout`: one order is written, and its personal data and
address are the forms that were typed, which pass validation. -/
theorem orders_carry_valid_data_witness :
    (App.visit App.init exampleCheckout).console.map (fun o => (o.dadosPessoais, o.endereco)) =
      [(exampleForm1, exampleForm3)] ∧
    (∀ o ∈ (App.visit App.init exampleCheckout).console,
      CheckoutModal.passesStep1 o.dadosPessoais = true ∧
        CheckoutModal.passesStep3 o.endereco = true) :=
  ⟨by decide, (orders_carry_valid_data exampleCheckout).2.1⟩

end PlanoJs
